import Mathlib

/-!
Shallow embedding of the price-normalization and rendering core of the
Steam-Market-Bot repository (src/bot/scmm_client.py and src/bot/embeds.py),
together with theorems settling the spec claims about it.

JSON values decoded by Python are modelled by `JVal`.  Python `None` and JSON
`null` are the same value after decoding, so both are `JVal.null`; Python
floats are modelled as rationals (every decoded decimal literal is one), and
Python `bool`, a subclass of `int`, is kept as a separate constructor whose
numeric coercions are made explicit where `isinstance(v, (int, float))`
appears in the source.
-/

namespace SteamMarketBot

/-- A JSON value as decoded by Python (`json.loads` on an SCMM response).
Objects keep their key/value pairs in document order, as Python dicts do. -/
inductive JVal where
  | null
  | bool (b : Bool)
  | int (n : Int)
  | float (q : Rat)
  | str (s : String)
  | arr (xs : List JVal)
  | obj (fs : List (String × JVal))

/-- A Python dict decoded from a JSON object. -/
abbrev JObj := List (String × JVal)

/-- `d.get(k)` on a decoded dict: a missing key yields Python `None`, which is
also what JSON `null` decodes to, so both are `JVal.null`. -/
def pyGet (d : JObj) (k : String) : JVal :=
  match d.lookup k with
  | some v => v
  | none => .null

/-- Python truthiness of a decoded JSON value. -/
def truthy : JVal → Bool
  | .null => false
  | .bool b => b
  | .int n => decide (n ≠ 0)
  | .float q => decide (q ≠ 0)
  | .str s => decide (s ≠ "")
  | .arr xs => !xs.isEmpty
  | .obj fs => !fs.isEmpty

/-- Python `a or b` (value-returning short-circuit on truthiness). -/
def pyOr (a b : JVal) : JVal := if truthy a then a else b

/-- Python `isinstance(v, (int, float))` together with `float(v)`.  `bool` is a
subclass of `int` in Python, so `True`/`False` count as numeric `1`/`0`. -/
def asNumber : JVal → Option Rat
  | .bool b => some (if b then 1 else 0)
  | .int n => some (n : Rat)
  | .float q => some q
  | _ => none

/-- Python `isinstance(v, int)` (true for `bool` as well, false for floats). -/
def pyIsInt : JVal → Bool
  | .bool _ => true
  | .int _ => true
  | _ => false

/-- The integer value of a Python `int` (including `bool`). -/
def asInt : JVal → Option Int
  | .bool b => some (if b then 1 else 0)
  | .int n => some n
  | _ => none

/-- Python `int(x)` on a float value: truncation toward zero. -/
def pyTrunc (q : Rat) : Int :=
  if q < 0 then -((-q).floor) else q.floor

/-- The test `v is False` from the scan in `get_market_breakdown`: identity
with the `False` singleton, true only for the literal boolean false. -/
def isLiteralFalse : JVal → Bool
  | .bool false => true
  | _ => false

/-- Python `v in (t₁, …, tₙ)` where the `tᵢ` are string tags. -/
def hasTag (tags : List String) : JVal → Bool
  | .str s => tags.contains s
  | _ => false

/-- `s.split("T", 1)[0]`: the prefix of `s` before the first `"T"` (the whole
string when no `"T"` occurs). -/
def beforeFirstT (s : String) : String :=
  String.mk (s.data.takeWhile fun c => c ≠ 'T')

/-- Python `str.strip()` whitespace test (`str.isspace`): ASCII whitespace,
the information separators, NEL, NBSP and the Unicode space code points. -/
def pyIsSpaceChar (c : Char) : Bool :=
  c == ' ' || c == '\t' || c == '\n' || c == '\r' || c == '\x0b' || c == '\x0c'
    || c == '\x1c' || c == '\x1d' || c == '\x1e' || c == '\x1f'
    || c == '\x85' || c == '\xa0' || c == '\u1680'
    || (decide ('\u2000' ≤ c) && decide (c ≤ '\u200A'))
    || c == '\u2028' || c == '\u2029' || c == '\u202F' || c == '\u205F' || c == '\u3000'

/-- Python `s.strip()` with no arguments. -/
def pyStrip (s : String) : String :=
  String.mk (((s.data.dropWhile pyIsSpaceChar).reverse.dropWhile pyIsSpaceChar).reverse)

/-- Does the second character list start with the first? -/
def listStartsWith : List Char → List Char → Bool
  | [], _ => true
  | _ :: _, [] => false
  | c :: cs, d :: ds => c == d && listStartsWith cs ds

/-- Does `needle` occur as a contiguous run inside the list? -/
def occursIn (needle : List Char) : List Char → Bool
  | [] => listStartsWith needle []
  | c :: cs => listStartsWith needle (c :: cs) || occursIn needle cs

/-- Python `needle in haystack` on strings (substring containment). -/
def containsSub (haystack needle : String) : Bool :=
  occursIn needle.data haystack.data

/-- Upper-case hexadecimal digit, as used by `urllib.parse.quote`. -/
def hexUpper (n : Nat) : Char :=
  if n < 10 then Char.ofNat (48 + n) else Char.ofNat (55 + n)

/-- Bytes `urllib.parse.quote` leaves unescaped when `safe=""`: ASCII
letters, digits, and `_ . - ~`. -/
def quoteSafeByte (b : Nat) : Bool :=
  (decide (48 ≤ b) && decide (b ≤ 57)) || (decide (65 ≤ b) && decide (b ≤ 90))
    || (decide (97 ≤ b) && decide (b ≤ 122))
    || b == 95 || b == 46 || b == 45 || b == 126

/-- `%XY` percent-escape of one byte. -/
def pctByte (b : Nat) : String :=
  String.mk ['%', hexUpper (b / 16), hexUpper (b % 16)]

/-- The UTF-8 encoding of one Unicode scalar value, as a list of bytes. -/
def utf8EncodeChar (c : Char) : List Nat :=
  let n := c.toNat
  if n < 128 then [n]
  else if n < 2048 then [192 + n / 64, 128 + n % 64]
  else if n < 65536 then [224 + n / 4096, 128 + (n / 64) % 64, 128 + n % 64]
  else [240 + n / 262144, 128 + (n / 4096) % 64, 128 + (n / 64) % 64, 128 + n % 64]

/-- The UTF-8 bytes of a string (Python's `s.encode("utf-8")`). -/
def strBytes (s : String) : List Nat :=
  s.data.flatMap utf8EncodeChar

/-- `urllib.parse.quote(s, safe="")`: percent-encode every UTF-8 byte outside
the always-safe set. -/
def pyQuote (s : String) : String :=
  String.join ((strBytes s).map fun n =>
    if quoteSafeByte n then String.mk [Char.ofNat n] else pctByte n)

/-- `urllib.parse.quote_plus(s)`: like `quote` with `safe=""` but a space
becomes `+`. -/
def pyQuotePlus (s : String) : String :=
  String.join ((strBytes s).map fun n =>
    if n == 32 then "+"
    else if quoteSafeByte n then String.mk [Char.ofNat n] else pctByte n)

/-! ## scmm_client.py -/

/-- `API_BASE` from scmm_client.py. -/
def API_BASE : String := "https://rust.scmm.app/api"

/-- The `StoreItem` dataclass.  Python dataclasses do not enforce their field
annotations at runtime, so the pass-through fields hold whatever decoded JSON
value the raw record supplied (`JVal.null` standing for Python `None`); the
computed `store_price` is a Python float or `None`, modelled as `Option Rat`. -/
structure StoreItem where
  id : JVal
  name : JVal
  store_price : Option Rat
  icon_url : JVal
  workshop_file_id : JVal
  app_id : JVal
  item_type : JVal
  collection : JVal

/-- `_normalize_store_item` (scmm_client.py lines 151–194). -/
def _normalize_store_item (raw : JObj) : StoreItem :=
  let id_ := pyGet raw "id"
  let name := pyOr (pyGet raw "name") (.str "Unknown")
  let raw_price : Option Rat :=
    List.findSome? (fun k => asNumber (pyGet raw k))
      ["storePrice", "price", "usdPrice", "finalPrice"]
  let store_price : Option Rat :=
    match raw_price with
    | some v => some (if v > 50 then v / 100 else v)
    | none => none
  let icon_url :=
    pyOr (pyGet raw "iconUrl") (pyOr (pyGet raw "iconURL")
      (pyOr (pyGet raw "imageUrl") .null))
  let workshop_file_id := pyGet raw "workshopFileId"
  let app_id := pyGet raw "appId"
  let item_type := pyOr (pyGet raw "itemType") .null
  let item_collection := pyOr (pyGet raw "itemCollection") .null
  { id := id_
    name := name
    store_price := store_price
    icon_url := icon_url
    workshop_file_id := workshop_file_id
    app_id := app_id
    item_type := item_type
    collection := item_collection }

/-- `extract_store_price_from_details` (scmm_client.py lines 335–346). -/
def extract_store_price_from_details (details : JObj) : Option Rat :=
  match asNumber (pyGet details "storePrice") with
  | none => none
  | some v => some (if v > 50 then v / 100 else v)

/-- `_norm_price` defined inside `get_market_breakdown`
(scmm_client.py lines 401–406). -/
def _norm_price (val : JVal) : Option Rat :=
  match asNumber val with
  | none => none
  | some v => some (if v > 50 then v / 100 else v)

/-- The three `nonlocal` accumulators of the `scan` closure inside
`get_market_breakdown`. -/
structure ScanState where
  steam_price : Option Rat
  skinport_price : Option Rat
  csdeals_price : Option Rat
deriving DecidableEq

/-- `if steam_price is None or p < steam_price: steam_price = p`, the running
minimum update used for each venue. -/
def updateMin (cur : Option Rat) (p : Rat) : Option Rat :=
  match cur with
  | none => some p
  | some c => if p < c then some p else some c

/-- One iteration of the `for entry in seq` loop of the `scan` closure
(scmm_client.py lines 417–436). -/
def scanEntry (st : ScanState) (entry : JVal) : ScanState :=
  match entry with
  | .obj e =>
    if isLiteralFalse (pyGet e "isAvailable") then st
    else
      let mtype := pyGet e "marketType"
      match _norm_price (pyGet e "price") with
      | none => st
      | some p =>
        if hasTag ["SteamCommunityMarket", "SteamMarket"] mtype then
          { st with steam_price := updateMin st.steam_price p }
        else if hasTag ["Skinport"] mtype then
          { st with skinport_price := updateMin st.skinport_price p }
        else if hasTag ["CSDealsMarketplace"] mtype then
          { st with csdeals_price := updateMin st.csdeals_price p }
        else st
  | _ => st

/-- The `scan` closure applied to one price list. -/
def scan (st : ScanState) (seq : List JVal) : ScanState :=
  seq.foldl scanEntry st

/-- The return value of `get_market_breakdown`. -/
structure MarketBreakdown where
  store_price : Option Rat
  steam_price : Option Rat
  steam_vs_store_pct : Option Rat
  skinport_price : Option Rat
  skinport_vs_steam_pct : Option Rat
  csdeals_price : Option Rat
  csdeals_vs_steam_pct : Option Rat
deriving DecidableEq

/-- The percentage-delta computation of `get_market_breakdown`: `None` when
either operand is absent or the base is zero, else `(new − base)/base×100`.
This is the `_pct_vs_steam` closure, and also the inline Steam-vs-store
computation (`if store_price is not None and steam_price is not None and
store_price != 0`), which guard the same way. -/
def pctDelta (base newp : Option Rat) : Option Rat :=
  match base, newp with
  | some b, some n => if b ≠ 0 then some ((n - b) / b * 100) else none
  | _, _ => none

/-- `get_market_breakdown` (scmm_client.py lines 387–465). -/
def get_market_breakdown (details : JObj) : MarketBreakdown :=
  let store_price := extract_store_price_from_details details
  let st0 : ScanState := ⟨none, none, none⟩
  let st1 :=
    match pyGet details "buyPrices" with
    | .arr seq => scan st0 seq
    | _ => st0
  let st2 :=
    match pyGet details "sellPrices" with
    | .arr seq => scan st1 seq
    | _ => st1
  { store_price := store_price
    steam_price := st2.steam_price
    steam_vs_store_pct := pctDelta store_price st2.steam_price
    skinport_price := st2.skinport_price
    skinport_vs_steam_pct := pctDelta st2.steam_price st2.skinport_price
    csdeals_price := st2.csdeals_price
    csdeals_vs_steam_pct := pctDelta st2.steam_price st2.csdeals_price }

/-- The `urls` dict built by `extract_market_urls`. -/
structure MarketUrls where
  steam : Option String
  skinport : Option String
  csdeals : Option String
deriving DecidableEq

/-- `entry.get("url") or entry.get("link") or entry.get("href")`. -/
def urlOf (e : JObj) : JVal :=
  pyOr (pyGet e "url") (pyOr (pyGet e "link") (pyGet e "href"))

/-- One iteration of the price-entry scan in step 1 of `extract_market_urls`
(scmm_client.py lines 505–527).  CS.Deals URLs are deliberately never taken
from entries (the branch is commented out in the source). -/
def scanUrlsEntry (u : MarketUrls) (entry : JVal) : MarketUrls :=
  match entry with
  | .obj e =>
    let mtype := pyGet e "marketType"
    match urlOf e with
    | .str s =>
      if s = "" then u
      else if hasTag ["SteamCommunityMarket", "SteamMarket"] mtype then
        if u.steam = none then { u with steam := some s } else u
      else if hasTag ["Skinport"] mtype then
        if u.skinport = none then { u with skinport := some s } else u
      else u
    | _ => u
  | _ => u

/-- `for field in candidates: … if isinstance(val, str) and val: … break`,
the per-venue fallback loop in step 2 of `extract_market_urls`. -/
def firstTruthyStr (d : JObj) : List String → Option String
  | [] => none
  | k :: rest =>
    match pyGet d k with
    | .str s => if s ≠ "" then some s else firstTruthyStr d rest
    | _ => firstTruthyStr d rest

/-- `extract_market_urls` (scmm_client.py lines 473–565). -/
def extract_market_urls (details : JObj) : MarketUrls :=
  let u0 : MarketUrls := ⟨none, none, none⟩
  let u1 :=
    match pyGet details "buyPrices" with
    | .arr seq => seq.foldl scanUrlsEntry u0
    | _ => u0
  let u2 :=
    match pyGet details "sellPrices" with
    | .arr seq => seq.foldl scanUrlsEntry u1
    | _ => u1
  let u3 :=
    if u2.steam = none then
      match firstTruthyStr details ["steamMarketUrl", "steamMarketURL", "steamUrl"] with
      | some s => { u2 with steam := some s }
      | none => u2
    else u2
  let u4 :=
    if u3.skinport = none then
      match firstTruthyStr details ["skinportUrl", "skinPortUrl"] with
      | some s => { u3 with skinport := some s }
      | none => u3
    else u3
  match pyGet details "name" with
  | .str name =>
    if name ≠ "" then
      let safe_name := pyQuote name
      let steamFallback := "https://steamcommunity.com/market/listings/252490/" ++ safe_name
      let u5 :=
        if u4.steam = none then { u4 with steam := some steamFallback } else u4
      let u6 :=
        if u5.skinport = none then
          { u5 with skinport := some ("https://skinport.com/rust?search=" ++ safe_name) }
        else u5
      let name_for_query := pyQuotePlus name
      let csdealsUrl :=
        "https://cs.deals/new/market?game=rust&sort=newest&sort_desc=1&exact_match=0&name="
          ++ name_for_query
      { u6 with csdeals := some csdealsUrl }
    else u4
  | _ => u4

/-- Python `str()` restricted to the value shapes an SCMM store `id` can take
(the ids in the API are strings such as `"2025-11-06-1819"`; numbers and the
other scalar forms are rendered the Python way, containers schematically). -/
def pyStr : JVal → String
  | .null => "None"
  | .bool true => "True"
  | .bool false => "False"
  | .int n => toString n
  | .float q => toString q
  | .str s => s
  | .arr _ => "[…]"
  | .obj _ => "…"

/-- The sort key of a matched store in `fetch_store_items_for_date`:
`str(s.get("start") or "")`.  Every match has a string `start` (the date
filter requires it), on which `str` is the identity and `or ""` only replaces
an empty string by itself. -/
def startKey (s : JObj) : String :=
  match pyGet s "start" with
  | .str t => t
  | _ => ""

/-- The date filter of `fetch_store_items_for_date` (scmm_client.py lines
291–297): keep stores whose `start` is a string whose `YYYY-MM-DD` prefix
equals the target date string. -/
def storeDateMatches (stores : List JObj) (target_str : String) : List JObj :=
  stores.filter fun s =>
    match pyGet s "start" with
    | .str start => beforeFirstT start == target_str
    | _ => false

/-- Python's `<` on strings: lexicographic comparison of the code-point
sequences. -/
def pyStrLtAux : List Char → List Char → Bool
  | [], [] => false
  | [], _ :: _ => true
  | _ :: _, [] => false
  | c :: cs, d :: ds =>
    if c < d then true
    else if d < c then false
    else pyStrLtAux cs ds

/-- Python's `<=` on strings. -/
def pyStrLe (a b : String) : Bool := !pyStrLtAux b.data a.data

/-- The comparison `sorted` uses on the keys of the matched stores. -/
def storeLe (a b : JObj) : Prop := pyStrLe (startKey a) (startKey b) = true

instance : DecidableRel storeLe := fun a b =>
  inferInstanceAs (Decidable (pyStrLe (startKey a) (startKey b) = true))

/-- `sorted(matches, key=lambda s: str(s.get("start") or ""))[-1]`: a stable
ascending sort followed by taking the last element. -/
def chooseLatestStore (matched : List JObj) : Option JObj :=
  (List.insertionSort storeLe matched).getLast?

/-- `fetch_store_items_for_date` (scmm_client.py lines 264–309).  The two
network calls of the source are passed explicitly: `stores` is the result of
`fetch_store_list_raw()` (annotated `List[Dict[str, Any]]`) and `fetchById`
is `fetch_store_items_by_id`; the target date is its `isoformat()` string. -/
def fetch_store_items_for_date (stores : List JObj)
    (fetchById : String → List StoreItem) (target_str : String) :
    List StoreItem × Option String :=
  if stores.isEmpty then ([], none)
  else
    let matched := storeDateMatches stores target_str
    if matched.isEmpty then ([], none)
    else
      match chooseLatestStore matched with
      | none => ([], none)
      | some chosen =>
        let store_id := pyGet chosen "id"
        if truthy store_id then
          let sid := pyStr store_id
          (fetchById sid, some sid)
        else ([], none)

/-- `fetch_item_details_by_name` (scmm_client.py lines 349–384).  The network
call `_http_get_json` is passed explicitly as `http`, mapping a URL to either
the decoded JSON body or the message of the `RuntimeError` it raised; the
result is the returned document or the message of the raised `RuntimeError`. -/
def fetch_item_details_by_name (http : String → Except String JVal)
    (name : String) : Except String JVal :=
  let clean := pyStrip name
  if clean = "" then .error "Item name is required"
  else
    let url := API_BASE ++ "/item/" ++ pyQuote clean
    match http url with
    | .error msg =>
      if containsSub msg "HTTP 404" then
        .error ("No item found on SCMM matching \x27" ++ clean
          ++ "\x27. Check the spelling or try a different name.")
      else .error msg
    | .ok details =>
      match details with
      | .obj _ => .ok details
      | _ => .error "SCMM item details response was not an object"

/-! ## embeds.py -/

/-- Round a rational to the nearest integer, ties to even: the rounding rule
of Python's fixed-point formatting, applied to the exact value (floats are
modelled as rationals throughout). -/
def roundHalfEven (q : Rat) : Int :=
  let f := q.floor
  let frac := q - f
  if frac < 1 / 2 then f
  else if frac > 1 / 2 then f + 1
  else if f % 2 = 0 then f else f + 1

/-- Left-pad a digit string with zeros to the given width. -/
def padZeros (w : Nat) (s : String) : String :=
  String.mk (List.replicate (w - s.length) '0') ++ s

/-- Python `f"{q:.prec f}"` fixed-point formatting of a (rational-modelled)
float. -/
def fmtFixed (prec : Nat) (q : Rat) : String :=
  let scaled := roundHalfEven (q * ((10 : Rat) ^ prec))
  let sign := if q < 0 then "-" else ""
  let n := scaled.natAbs
  if prec = 0 then sign ++ toString n
  else
    let base := 10 ^ prec
    sign ++ toString (n / base) ++ "." ++ padZeros prec (toString (n % base))

/-- Insert thousands separators into a digit string, as `f"{n:,}"` does. -/
def groupDigits (s : String) : String :=
  String.mk ((s.data.reverse.toChunks 3).intersperse [','] |>.flatten |>.reverse)

/-- Python `f"{n:,}"` for an integer. -/
def fmtComma (n : Int) : String :=
  (if n < 0 then "-" else "") ++ groupDigits (toString n.natAbs)

/-- The store line of `_render_market_lines` (embeds.py lines 58–62). -/
def _store_line (bd : MarketBreakdown) : String :=
  match bd.store_price with
  | some s => "**Store:** $" ++ fmtFixed 2 s
  | none => "**Store:** Unknown"

/-- The Steam-vs-store line of `_render_market_lines` (embeds.py lines
64–76). -/
def _steam_line (bd : MarketBreakdown) : String :=
  match bd.steam_price with
  | some t =>
    match bd.steam_vs_store_pct with
    | some pct =>
      let sign := if pct ≥ 0 then "+" else "-"
      let emoji := if pct ≥ 0 then "🟢" else "🔴"
      "**Steam Market:** $" ++ fmtFixed 2 t ++ " (" ++ emoji ++ " " ++ sign
        ++ fmtFixed 1 |pct| ++ "% vs store)"
    | none => "**Steam Market:** $" ++ fmtFixed 2 t
  | none => "**Steam Market:** No data"

/-- The Skinport line of `_render_market_lines` (embeds.py lines 80–91). -/
def _skinport_line (bd : MarketBreakdown) : String :=
  match bd.skinport_price with
  | some p =>
    match bd.skinport_vs_steam_pct with
    | some pct =>
      let sign := if pct ≥ 0 then "+" else "-"
      let emoji := if pct ≥ 0 then "🟢" else "🔴"
      "**Skinport:** $" ++ fmtFixed 2 p ++ " (" ++ emoji ++ " " ++ sign
        ++ fmtFixed 1 |pct| ++ "% vs Steam)"
    | none => "**Skinport:** $" ++ fmtFixed 2 p
  | none => "**Skinport:** No listings"

/-- The CS.Deals line of `_render_market_lines` (embeds.py lines 93–104). -/
def _csdeals_line (bd : MarketBreakdown) : String :=
  match bd.csdeals_price with
  | some p =>
    match bd.csdeals_vs_steam_pct with
    | some pct =>
      let sign := if pct ≥ 0 then "+" else "-"
      let emoji := if pct ≥ 0 then "🟢" else "🔴"
      "**CS.Deals:** $" ++ fmtFixed 2 p ++ " (" ++ emoji ++ " " ++ sign
        ++ fmtFixed 1 |pct| ++ "% vs Steam)"
    | none => "**CS.Deals:** $" ++ fmtFixed 2 p
  | none => "**CS.Deals:** No listings"

/-- `_render_market_lines` (embeds.py lines 28–106).  `details` is `Optional`
in the source and `if not details` is true both for `None` and for an empty
dict. -/
def _render_market_lines (details : Option JObj) (include_third_party : Bool) :
    String :=
  match details with
  | none => "**Store:** Unknown\n**Steam Market:** No data"
  | some d =>
    if d.isEmpty then "**Store:** Unknown\n**Steam Market:** No data"
    else
      let bd := get_market_breakdown d
      let lines : List String :=
        [_store_line bd, _steam_line bd]
          ++ (if include_third_party then [_skinport_line bd, _csdeals_line bd] else [])
      String.intercalate "\n" lines

/-- The released-date/store-price fact of `_build_stats_block` (embeds.py
lines 198–216), as the sublist of `lines` it contributes. -/
def statsReleasedLines (d : JObj) : List String :=
  let released := pyGet d "timeAccepted"
  let store_price : Option Rat :=
    match asNumber (pyGet d "storePrice") with
    | some v => some (if v > 50 then v / 100 else v)
    | none => none
  let date_txt : Option String :=
    match released with
    | .str s => if s ≠ "" then some (beforeFirstT s) else none
    | _ => none
  let dateTruthy : Bool :=
    match date_txt with
    | some t => decide (t ≠ "")
    | none => false
  if dateTruthy || store_price.isSome then
    let price_part :=
      match store_price with
      | some v => "for **$" ++ fmtFixed 2 v ++ "**"
      | none => ""
    if dateTruthy then
      [pyStrip ("🛒 Released on **" ++ (date_txt.getD "") ++ "** " ++ price_part)]
    else if price_part ≠ "" then ["🛒 Store price " ++ price_part]
    else []
  else []

/-- The estimated-supply fact of `_build_stats_block` (embeds.py lines
219–224). -/
def statsSupplyLines (d : JObj) : List String :=
  match asNumber (pyOr (pyGet d "supplyTotalEstimated")
      (pyGet d "supplyTotalOwnersEstimated")) with
  | some v => ["📦 Estimated supply: **" ++ fmtComma (pyTrunc v) ++ "**"]
  | none => []

/-- The workshop-subscribers fact of `_build_stats_block` (embeds.py lines
227–229). -/
def statsSubsLines (d : JObj) : List String :=
  match asNumber (pyOr (pyGet d "subscriptionsCurrent")
      (pyGet d "subscriptionsLifetime")) with
  | some v => ["👥 Workshop subscribers: **" ++ fmtComma (pyTrunc v) ++ "**"]
  | none => []

/-- The votes fact of `_build_stats_block` (embeds.py lines 232–238). -/
def statsVotesLines (d : JObj) : List String :=
  match asInt (pyGet d "votesUp"), asInt (pyGet d "votesDown") with
  | some up, some down =>
    let total := up + down
    if total > 0 then
      let ratio : Rat := (up : Rat) / (total : Rat) * 100
      ["👍 Votes: **" ++ fmtComma total ++ "** (" ++ fmtFixed 0 ratio ++ "% positive)"]
    else []
  | _, _ => []

/-- The favourites fact of `_build_stats_block` (embeds.py lines 241–243). -/
def statsFavsLines (d : JObj) : List String :=
  match asNumber (pyOr (pyGet d "favouritedCurrent")
      (pyGet d "favouritedLifetime")) with
  | some v => ["⭐ Favourited: **" ++ fmtComma (pyTrunc v) ++ "**"]
  | none => []

/-- The views fact of `_build_stats_block` (embeds.py lines 246–248). -/
def statsViewsLines (d : JObj) : List String :=
  match asNumber (pyGet d "views") with
  | some v => ["👀 Workshop views: **" ++ fmtComma (pyTrunc v) ++ "**"]
  | none => []

/-- The breaks-into-components fact of `_build_stats_block` (embeds.py lines
251–259). -/
def statsComponentsLines (d : JObj) : List String :=
  match pyGet d "breaksIntoComponents" with
  | .obj fs =>
    if fs.isEmpty then []
    else
      let parts := fs.filterMap fun kv =>
        match asNumber kv.2 with
        | some v => some (toString (pyTrunc v) ++ "x " ++ kv.1)
        | none => none
      if parts.isEmpty then []
      else ["🪓 Breaks into " ++ String.intercalate ", " parts]
  | _ => []

/-- `_build_stats_block` (embeds.py lines 180–261).  `details` is `Optional`
and `if not details` is true both for `None` and for an empty dict. -/
def _build_stats_block (details : Option JObj) : Option String :=
  match details with
  | none => none
  | some d =>
    if d.isEmpty then none
    else
      let lines :=
        statsReleasedLines d ++ statsSupplyLines d ++ statsSubsLines d
          ++ statsVotesLines d ++ statsFavsLines d ++ statsViewsLines d
          ++ statsComponentsLines d
      if lines.isEmpty then none else some (String.intercalate "\n" lines)

/-! ## Theorems -/

/-- Spec-side helper: the normalized price an entry contributes for a venue
(one of the venue's tags, not marked unavailable, numeric price), `none`
otherwise. -/
def entryQual (tags : List String) (entry : JVal) : Option Rat :=
  match entry with
  | .obj e =>
    if isLiteralFalse (pyGet e "isAvailable") then none
    else if hasTag tags (pyGet e "marketType") then _norm_price (pyGet e "price")
    else none
  | _ => none

/-- Spec-side helper: the qualifying normalized prices of a venue in one
price list, in scan order. -/
def seqQualPrices (tags : List String) (seq : List JVal) : List Rat :=
  seq.filterMap (entryQual tags)

/-- Spec-side helper: all qualifying normalized prices of a venue in the
buy-price and sell-price lists of a detail document. -/
def qualifyingPrices (details : JObj) (tags : List String) : List Rat :=
  let entriesOf := fun key =>
    match pyGet details key with
    | JVal.arr seq => seq
    | _ => []
  seqQualPrices tags (entriesOf "buyPrices") ++ seqQualPrices tags (entriesOf "sellPrices")

/-- Merge of two optional minima. -/
def optMin : Option Rat → Option Rat → Option Rat
  | none, b => b
  | some a, none => some a
  | some a, some b => some (min a b)

/-- The minimum of a list of rationals, `none` on the empty list. -/
def minimumOfList : List Rat → Option Rat
  | [] => none
  | p :: rest => optMin (some p) (minimumOfList rest)

theorem updateMin_eq_optMin (cur : Option Rat) (p : Rat) :
    updateMin cur p = optMin cur (some p) := by
  cases cur with
  | none => rfl
  | some c =>
    simp only [updateMin, optMin]
    rcases lt_or_le p c with h | h
    · rw [if_pos h, min_eq_right h.le]
    · rw [if_neg (not_lt.mpr h), min_eq_left h]

theorem optMin_none_right (a : Option Rat) : optMin a none = a := by
  cases a <;> rfl

theorem optMin_assoc (a b c : Option Rat) :
    optMin a (optMin b c) = optMin (optMin a b) c := by
  cases a <;> cases b <;> cases c <;> simp [optMin, min_assoc]

theorem scanEntry_eq (st : ScanState) (entry : JVal) :
    (scanEntry st entry).steam_price
        = optMin st.steam_price (entryQual ["SteamCommunityMarket", "SteamMarket"] entry)
    ∧ (scanEntry st entry).skinport_price
        = optMin st.skinport_price (entryQual ["Skinport"] entry)
    ∧ (scanEntry st entry).csdeals_price
        = optMin st.csdeals_price (entryQual ["CSDealsMarketplace"] entry) := by
  cases entry with
  | obj e =>
    simp only [scanEntry, entryQual]
    by_cases hA : isLiteralFalse (pyGet e "isAvailable")
    · simp [hA, optMin_none_right]
    · simp only [hA, Bool.false_eq_true, if_false, if_neg]
      cases hP : _norm_price (pyGet e "price") with
      | none =>
        have : ∀ t : List String,
            (if hasTag t (pyGet e "marketType") then _norm_price (pyGet e "price")
              else none) = none := by
          intro t; split <;> simp [hP]
        simp [this, optMin_none_right]
      | some p =>
        cases hM : pyGet e "marketType" with
        | str s =>
          by_cases h1 : s = "SteamCommunityMarket"
          · subst h1; simp [hasTag, hP, updateMin_eq_optMin, optMin_none_right]
          · by_cases h2 : s = "SteamMarket"
            · subst h2; simp [hasTag, hP, updateMin_eq_optMin, optMin_none_right]
            · by_cases h3 : s = "Skinport"
              · subst h3; simp [hasTag, hP, updateMin_eq_optMin, optMin_none_right]
              · by_cases h4 : s = "CSDealsMarketplace"
                · subst h4; simp [hasTag, hP, updateMin_eq_optMin, optMin_none_right]
                · simp [hasTag, h1, h2, h3, h4, hP, optMin_none_right]
        | null => simp [hasTag, hP, optMin_none_right]
        | bool b => simp [hasTag, hP, optMin_none_right]
        | int n => simp [hasTag, hP, optMin_none_right]
        | float q => simp [hasTag, hP, optMin_none_right]
        | arr xs => simp [hasTag, hP, optMin_none_right]
        | obj fs => simp [hasTag, hP, optMin_none_right]
  | null => simp [scanEntry, entryQual, optMin_none_right]
  | bool b => simp [scanEntry, entryQual, optMin_none_right]
  | int n => simp [scanEntry, entryQual, optMin_none_right]
  | float q => simp [scanEntry, entryQual, optMin_none_right]
  | str s => simp [scanEntry, entryQual, optMin_none_right]
  | arr xs => simp [scanEntry, entryQual, optMin_none_right]

theorem scan_eq (seq : List JVal) (st : ScanState) :
    (scan st seq).steam_price
        = optMin st.steam_price
            (minimumOfList (seqQualPrices ["SteamCommunityMarket", "SteamMarket"] seq))
    ∧ (scan st seq).skinport_price
        = optMin st.skinport_price (minimumOfList (seqQualPrices ["Skinport"] seq))
    ∧ (scan st seq).csdeals_price
        = optMin st.csdeals_price
            (minimumOfList (seqQualPrices ["CSDealsMarketplace"] seq)) := by
  induction seq generalizing st with
  | nil => simp [scan, seqQualPrices, minimumOfList, optMin_none_right]
  | cons entry rest ih =>
    have hstep := scanEntry_eq st entry
    have hrest := ih (scanEntry st entry)
    have hq : ∀ t : List String,
        minimumOfList (seqQualPrices t (entry :: rest))
          = optMin (entryQual t entry) (minimumOfList (seqQualPrices t rest)) := by
      intro t
      simp only [seqQualPrices, List.filterMap_cons]
      cases entryQual t entry with
      | none => simp [optMin]
      | some p => simp [minimumOfList, optMin]
    refine ⟨?_, ?_, ?_⟩
    · rw [show scan st (entry :: rest) = scan (scanEntry st entry) rest from rfl,
        hrest.1, hstep.1, hq, optMin_assoc]
    · rw [show scan st (entry :: rest) = scan (scanEntry st entry) rest from rfl,
        hrest.2.1, hstep.2.1, hq, optMin_assoc]
    · rw [show scan st (entry :: rest) = scan (scanEntry st entry) rest from rfl,
        hrest.2.2, hstep.2.2, hq, optMin_assoc]

theorem minimumOfList_append (a b : List Rat) :
    minimumOfList (a ++ b) = optMin (minimumOfList a) (minimumOfList b) := by
  induction a with
  | nil => simp [minimumOfList, optMin]
  | cons p rest ih => simp [minimumOfList, ih, optMin_assoc]

theorem minimumOfList_none_iff (l : List Rat) : minimumOfList l = none ↔ l = [] := by
  cases l with
  | nil => simp [minimumOfList]
  | cons p rest =>
    simp only [minimumOfList]
    cases minimumOfList rest <;> simp [optMin]

theorem minimumOfList_spec (l : List Rat) (p : Rat) (h : minimumOfList l = some p) :
    p ∈ l ∧ ∀ q ∈ l, p ≤ q := by
  induction l generalizing p with
  | nil => simp [minimumOfList] at h
  | cons a rest ih =>
    simp only [minimumOfList] at h
    cases hrest : minimumOfList rest with
    | none =>
      rw [hrest] at h
      simp only [optMin] at h
      obtain rfl : a = p := by injection h
      have : rest = [] := (minimumOfList_none_iff rest).mp hrest
      subst this
      simp
    | some m =>
      rw [hrest] at h
      simp only [optMin] at h
      obtain rfl : min a m = p := by injection h
      obtain ⟨hmem, hub⟩ := ih m hrest
      rcases min_cases a m with ⟨heq, hle⟩ | ⟨heq, hle⟩
      · rw [heq]
        exact ⟨List.mem_cons_self a rest,
          fun q hq => by
            rcases List.mem_cons.mp hq with rfl | hq
            · exact le_refl q
            · exact le_trans hle (hub q hq)⟩
      · rw [heq]
        exact ⟨List.mem_cons_of_mem a hmem,
          fun q hq => by
            rcases List.mem_cons.mp hq with rfl | hq
            · exact hle.le
            · exact hub q hq⟩

theorem scan_scan_eq (b s : List JVal) :
    (scan (scan (⟨none, none, none⟩ : ScanState) b) s).steam_price
        = minimumOfList (seqQualPrices ["SteamCommunityMarket", "SteamMarket"] b
            ++ seqQualPrices ["SteamCommunityMarket", "SteamMarket"] s)
    ∧ (scan (scan (⟨none, none, none⟩ : ScanState) b) s).skinport_price
        = minimumOfList (seqQualPrices ["Skinport"] b ++ seqQualPrices ["Skinport"] s)
    ∧ (scan (scan (⟨none, none, none⟩ : ScanState) b) s).csdeals_price
        = minimumOfList (seqQualPrices ["CSDealsMarketplace"] b
            ++ seqQualPrices ["CSDealsMarketplace"] s) := by
  have h1 := scan_eq b (⟨none, none, none⟩ : ScanState)
  have h2 := scan_eq s (scan (⟨none, none, none⟩ : ScanState) b)
  refine ⟨?_, ?_, ?_⟩
  · rw [h2.1, h1.1, minimumOfList_append]; rfl
  · rw [h2.2.1, h1.2.1, minimumOfList_append]; rfl
  · rw [h2.2.2, h1.2.2, minimumOfList_append]; rfl

theorem breakdown_venue_minima (details : JObj) :
    (get_market_breakdown details).steam_price
        = minimumOfList (qualifyingPrices details ["SteamCommunityMarket", "SteamMarket"])
    ∧ (get_market_breakdown details).skinport_price
        = minimumOfList (qualifyingPrices details ["Skinport"])
    ∧ (get_market_breakdown details).csdeals_price
        = minimumOfList (qualifyingPrices details ["CSDealsMarketplace"]) := by
  simp only [get_market_breakdown, qualifyingPrices]
  cases hB : pyGet details "buyPrices" <;> cases hS : pyGet details "sellPrices" <;>
    first
      | exact scan_scan_eq _ _
      | exact scan_scan_eq [] _
      | exact scan_scan_eq _ []
      | exact scan_scan_eq [] []

/-- C2: for each of the three venue tags, the venue price computed by
`get_market_breakdown` is the minimum normalized price over all entries of
the buy-price and sell-price lists carrying that venue's tag with a numeric
price and not marked unavailable (entries marked unavailable are not in the
qualifying set at all), and the venue price is `None` exactly when no
qualifying entry exists. -/
theorem C2_venue_best_price (details : JObj) :
    ((get_market_breakdown details).steam_price = none
        ↔ qualifyingPrices details ["SteamCommunityMarket", "SteamMarket"] = [])
    ∧ (∀ p, (get_market_breakdown details).steam_price = some p →
        p ∈ qualifyingPrices details ["SteamCommunityMarket", "SteamMarket"]
          ∧ ∀ q ∈ qualifyingPrices details ["SteamCommunityMarket", "SteamMarket"], p ≤ q)
    ∧ ((get_market_breakdown details).skinport_price = none
        ↔ qualifyingPrices details ["Skinport"] = [])
    ∧ (∀ p, (get_market_breakdown details).skinport_price = some p →
        p ∈ qualifyingPrices details ["Skinport"]
          ∧ ∀ q ∈ qualifyingPrices details ["Skinport"], p ≤ q)
    ∧ ((get_market_breakdown details).csdeals_price = none
        ↔ qualifyingPrices details ["CSDealsMarketplace"] = [])
    ∧ (∀ p, (get_market_breakdown details).csdeals_price = some p →
        p ∈ qualifyingPrices details ["CSDealsMarketplace"]
          ∧ ∀ q ∈ qualifyingPrices details ["CSDealsMarketplace"], p ≤ q) := by
  obtain ⟨h1, h2, h3⟩ := breakdown_venue_minima details
  refine ⟨?_, ?_, ?_, ?_, ?_, ?_⟩
  · rw [h1]; exact minimumOfList_none_iff _
  · intro p hp; exact minimumOfList_spec _ p (h1 ▸ hp)
  · rw [h2]; exact minimumOfList_none_iff _
  · intro p hp; exact minimumOfList_spec _ p (h2 ▸ hp)
  · rw [h3]; exact minimumOfList_none_iff _
  · intro p hp; exact minimumOfList_spec _ p (h3 ▸ hp)

/-- Witness instantiating C2 on a document with one available Skinport entry
at price 12 and one cheaper but unavailable Skinport entry at price 5. -/
theorem C2_venue_best_price_witness :
    ((12 : Int) : Rat) ∈ qualifyingPrices
        [("sellPrices", JVal.arr
          [JVal.obj [("marketType", JVal.str "Skinport"), ("price", JVal.int 5),
            ("isAvailable", JVal.bool false)],
           JVal.obj [("marketType", JVal.str "Skinport"), ("price", JVal.int 12)]])]
        ["Skinport"]
    ∧ ∀ q ∈ qualifyingPrices
        [("sellPrices", JVal.arr
          [JVal.obj [("marketType", JVal.str "Skinport"), ("price", JVal.int 5),
            ("isAvailable", JVal.bool false)],
           JVal.obj [("marketType", JVal.str "Skinport"), ("price", JVal.int 12)]])]
        ["Skinport"], ((12 : Int) : Rat) ≤ q :=
  (C2_venue_best_price _).2.2.2.1 ((12 : Int) : Rat) (by decide)

/-- C1: for every numeric price input `v` the normalized price is `v / 100`
when `v > 50` and `v` otherwise — in particular `50` is returned unchanged
and `50.01` is divided — uniformly for `_norm_price` inside
`get_market_breakdown`, for `extract_store_price_from_details`, and for the
store-price normalization of `_normalize_store_item`; non-numeric inputs
normalize to `None`. -/
theorem C1_price_normalization (val : JVal) (v : Rat) (h : asNumber val = some v)
    (raw : JObj) (hraw : pyGet raw "storePrice" = val)
    (w : JVal) (hw : asNumber w = none) :
    _norm_price val = some (if v > 50 then v / 100 else v)
    ∧ extract_store_price_from_details raw = some (if v > 50 then v / 100 else v)
    ∧ (_normalize_store_item raw).store_price = some (if v > 50 then v / 100 else v)
    ∧ _norm_price (.float 50) = some 50
    ∧ _norm_price (.float (5001 / 100)) = some (5001 / 10000)
    ∧ _norm_price w = none
    ∧ extract_store_price_from_details [("storePrice", w)] = none
    ∧ (_normalize_store_item [("storePrice", w)]).store_price = none := by
  refine ⟨?_, ?_, ?_, ?_, ?_, ?_, ?_, ?_⟩
  · simp [_norm_price, h]
  · simp [extract_store_price_from_details, hraw, h]
  · simp [_normalize_store_item, List.findSome?, hraw, h]
  · norm_num [_norm_price, asNumber]
  · norm_num [_norm_price, asNumber]
  · simp [_norm_price, hw]
  · simp [extract_store_price_from_details, pyGet, List.lookup, hw]
  · have hnull : asNumber JVal.null = none := rfl
    simp [_normalize_store_item, List.findSome?, pyGet, List.lookup, hw, hnull]

/-- Witness instantiating C1 at the numeric input 7, a store item record
carrying it, and the non-numeric input `"x"`. -/
theorem C1_price_normalization_witness :
    _norm_price (JVal.int 7) = some (if (7 : Rat) > 50 then 7 / 100 else 7)
    ∧ _norm_price (JVal.str "x") = none := by
  have h := C1_price_normalization (JVal.int 7) 7 (by simp [asNumber])
    [("storePrice", JVal.int 7)] (by simp [pyGet, List.lookup])
    (JVal.str "x") (by simp [asNumber])
  exact ⟨h.1, h.2.2.2.2.2.1⟩

theorem breakdown_pct_fields (details : JObj) :
    (get_market_breakdown details).steam_vs_store_pct
        = pctDelta (get_market_breakdown details).store_price
            (get_market_breakdown details).steam_price
    ∧ (get_market_breakdown details).skinport_vs_steam_pct
        = pctDelta (get_market_breakdown details).steam_price
            (get_market_breakdown details).skinport_price
    ∧ (get_market_breakdown details).csdeals_vs_steam_pct
        = pctDelta (get_market_breakdown details).steam_price
            (get_market_breakdown details).csdeals_price :=
  ⟨rfl, rfl, rfl⟩

theorem pctDelta_eq_none (base newp : Option Rat)
    (h : base = none ∨ newp = none ∨ base = some 0) : pctDelta base newp = none := by
  rcases h with h | h | h
  · subst h; cases newp <;> rfl
  · subst h; cases base <;> rfl
  · subst h; cases newp with
    | none => rfl
    | some n => simp [pctDelta]

theorem pctDelta_eq_some (b n : Rat) (hb : b ≠ 0) :
    pctDelta (some b) (some n) = some ((n - b) / b * 100) := by
  simp [pctDelta, hb]

/-- C3: each percentage-delta field of the market breakdown is `None`
whenever either of its two operands is absent or its base operand is zero,
and otherwise equals exactly `(new − base) / base × 100`; the base is the
store price for the Steam delta and the Steam price for the Skinport and
CS.Deals deltas. -/
theorem C3_percentage_deltas (details : JObj) :
    ((get_market_breakdown details).store_price = none
        ∨ (get_market_breakdown details).steam_price = none
        ∨ (get_market_breakdown details).store_price = some 0
      → (get_market_breakdown details).steam_vs_store_pct = none)
    ∧ (∀ s t, (get_market_breakdown details).store_price = some s →
        (get_market_breakdown details).steam_price = some t → s ≠ 0 →
        (get_market_breakdown details).steam_vs_store_pct = some ((t - s) / s * 100))
    ∧ ((get_market_breakdown details).steam_price = none
        ∨ (get_market_breakdown details).skinport_price = none
        ∨ (get_market_breakdown details).steam_price = some 0
      → (get_market_breakdown details).skinport_vs_steam_pct = none)
    ∧ (∀ t p, (get_market_breakdown details).steam_price = some t →
        (get_market_breakdown details).skinport_price = some p → t ≠ 0 →
        (get_market_breakdown details).skinport_vs_steam_pct = some ((p - t) / t * 100))
    ∧ ((get_market_breakdown details).steam_price = none
        ∨ (get_market_breakdown details).csdeals_price = none
        ∨ (get_market_breakdown details).steam_price = some 0
      → (get_market_breakdown details).csdeals_vs_steam_pct = none)
    ∧ (∀ t p, (get_market_breakdown details).steam_price = some t →
        (get_market_breakdown details).csdeals_price = some p → t ≠ 0 →
        (get_market_breakdown details).csdeals_vs_steam_pct = some ((p - t) / t * 100)) := by
  obtain ⟨e1, e2, e3⟩ := breakdown_pct_fields details
  refine ⟨?_, ?_, ?_, ?_, ?_, ?_⟩
  · intro h; rw [e1]; exact pctDelta_eq_none _ _ h
  · intro s t hs ht hs0; rw [e1, hs, ht]; exact pctDelta_eq_some s t hs0
  · intro h; rw [e2]
    rcases h with h | h | h
    · exact pctDelta_eq_none _ _ (Or.inl h)
    · exact pctDelta_eq_none _ _ (Or.inr (Or.inl h))
    · exact pctDelta_eq_none _ _ (Or.inr (Or.inr h))
  · intro t p ht hp ht0; rw [e2, ht, hp]; exact pctDelta_eq_some t p ht0
  · intro h; rw [e3]
    rcases h with h | h | h
    · exact pctDelta_eq_none _ _ (Or.inl h)
    · exact pctDelta_eq_none _ _ (Or.inr (Or.inl h))
    · exact pctDelta_eq_none _ _ (Or.inr (Or.inr h))
  · intro t p ht hp ht0; rw [e3, ht, hp]; exact pctDelta_eq_some t p ht0

/-- Witness instantiating C3 on a document with store price 10 and one
available Steam entry at price 12: the Steam-vs-store delta is +20%. -/
theorem C3_percentage_deltas_witness :
    (get_market_breakdown [("storePrice", JVal.int 10),
        ("sellPrices", JVal.arr
          [JVal.obj [("marketType", JVal.str "SteamCommunityMarket"),
            ("price", JVal.int 12)]])]).steam_vs_store_pct
      = some ((((12 : Int) : Rat) - ((10 : Int) : Rat)) / ((10 : Int) : Rat) * 100) := by
  have h := (C3_percentage_deltas [("storePrice", JVal.int 10),
      ("sellPrices", JVal.arr
        [JVal.obj [("marketType", JVal.str "SteamCommunityMarket"),
          ("price", JVal.int 12)]])]).2.1
      ((10 : Int) : Rat) ((12 : Int) : Rat) (by decide) (by decide) (by norm_num)
  exact h

/-- C4: whenever the detail document has a non-empty string name, the
CS.Deals URL returned by `extract_market_urls` is the synthesized fixed-format
cs.deals search URL built from the plus-encoded item name — for every
document, hence regardless of any CS.Deals URL in its price entries or
top-level fields and regardless of Steam/Skinport resolution. -/
theorem C4_csdeals_always_synthesized (details : JObj) (name : String)
    (hname : pyGet details "name" = JVal.str name) (hne : name ≠ "") :
    (extract_market_urls details).csdeals
      = some ("https://cs.deals/new/market?game=rust&sort=newest&sort_desc=1&exact_match=0&name="
          ++ pyQuotePlus name) := by
  simp only [extract_market_urls, hname]
  simp [hne]

/-- Witness instantiating C4 on a document that even carries a CS.Deals URL
in its sell-price entries: the synthesized search URL wins. -/
theorem C4_csdeals_always_synthesized_witness :
    (extract_market_urls
        [("name", JVal.str "Glowing Door"),
         ("sellPrices", JVal.arr
          [JVal.obj [("marketType", JVal.str "CSDealsMarketplace"),
            ("url", JVal.str "https://cs.deals/somewhere-else")]])]).csdeals
      = some ("https://cs.deals/new/market?game=rust&sort=newest&sort_desc=1&exact_match=0&name="
          ++ pyQuotePlus "Glowing Door") :=
  C4_csdeals_always_synthesized _ "Glowing Door" rfl (by decide)

theorem pyStrLtAux_irrefl (l : List Char) : pyStrLtAux l l = false := by
  induction l with
  | nil => rfl
  | cons c cs ih => simp [pyStrLtAux, lt_irrefl, ih]

theorem pyStrLtAux_asymm (a b : List Char) (h : pyStrLtAux a b = true) :
    pyStrLtAux b a = false := by
  induction a generalizing b with
  | nil =>
    cases b with
    | nil => simp [pyStrLtAux] at h
    | cons d ds => rfl
  | cons c cs ih =>
    cases b with
    | nil => simp [pyStrLtAux] at h
    | cons d ds =>
      simp only [pyStrLtAux] at h ⊢
      by_cases hcd : c < d
      · simp [hcd, asymm hcd]
      · by_cases hdc : d < c
        · simp [hcd, hdc] at h
        · simp only [hcd, hdc, if_false] at h
          simp [hcd, hdc, ih ds h]

theorem pyStrLtAux_resolve (u : List Char) :
    ∀ w v : List Char, pyStrLtAux u v = true →
      pyStrLtAux u w = true ∨ pyStrLtAux w v = true := by
  induction u with
  | nil =>
    intro w v h
    cases v with
    | nil => simp [pyStrLtAux] at h
    | cons a as =>
      cases w with
      | nil => right; exact h
      | cons b bs => left; rfl
  | cons c cs ih =>
    intro w v h
    cases v with
    | nil => simp [pyStrLtAux] at h
    | cons a as =>
      cases w with
      | nil => right; rfl
      | cons b bs =>
        simp only [pyStrLtAux] at h ⊢
        by_cases hca : c < a
        · by_cases hcb : c < b
          · left; simp [hcb]
          · right
            have hba : b < a := lt_of_le_of_lt (not_lt.mp hcb) hca
            simp [hba]
        · by_cases hac : a < c
          · simp [hca, hac] at h
          · have hcs : pyStrLtAux cs as = true := by
              simpa [hca, hac] using h
            have hae : a = c := le_antisymm (not_lt.mp hca) (not_lt.mp hac)
            subst hae
            by_cases hab : a < b
            · left; simp [hab]
            · by_cases hba : b < a
              · right; simp [hba]
              · have hbe : b = a := le_antisymm (not_lt.mp hab) (not_lt.mp hba)
                subst hbe
                rcases ih bs as hcs with h1 | h2
                · left; simp [lt_irrefl, h1]
                · right; simp [lt_irrefl, h2]

theorem pyStrLe_refl (s : String) : pyStrLe s s = true := by
  simp [pyStrLe, pyStrLtAux_irrefl]

instance : IsTotal JObj storeLe :=
  ⟨fun a b => by
    unfold storeLe pyStrLe
    by_cases h : pyStrLtAux (startKey b).data (startKey a).data = true
    · right
      simp [pyStrLtAux_asymm _ _ h]
    · left
      simp [Bool.not_eq_true] at h
      simp [h]⟩

instance : IsTrans JObj storeLe :=
  ⟨fun a b c hab hbc => by
    unfold storeLe pyStrLe at hab hbc ⊢
    simp only [Bool.not_eq_true'] at hab hbc ⊢
    by_contra hcontra
    simp only [Bool.not_eq_false] at hcontra
    rcases pyStrLtAux_resolve _ (startKey b).data _ hcontra with h | h
    · rw [hbc] at h; exact Bool.false_ne_true h
    · rw [hab] at h; exact Bool.false_ne_true h⟩

theorem sorted_getLast_ub (l : List JObj) (hs : l.Sorted storeLe) (c : JObj)
    (hc : l.getLast? = some c) : ∀ m ∈ l, storeLe m c := by
  induction l with
  | nil => simp at hc
  | cons a t ih =>
    obtain ⟨ha, ht⟩ := List.sorted_cons.mp hs
    cases t with
    | nil =>
      simp only [List.getLast?] at hc
      obtain rfl : a = c := by injection hc
      intro m hm
      simp only [List.mem_singleton] at hm
      subst hm
      exact pyStrLe_refl (startKey m)
    | cons b t2 =>
      rw [List.getLast?_cons_cons] at hc
      intro m hm
      rcases List.mem_cons.mp hm with rfl | hm2
      · exact ha c (List.mem_of_getLast?_eq_some hc)
      · exact ih ht hc m hm2

/-- C5: `fetch_store_items_for_date` selects, among the stores whose start
timestamp has the target date as its `YYYY-MM-DD` prefix, one that is in the
match set and whose full start timestamp is lexicographically greatest; on
the spec's two-store example the later store (id "B") is selected; and when
no store matches the date the result is the empty list with no identifier. -/
theorem C5_store_date_selection (stores : List JObj)
    (fetchById : String → List StoreItem) (target_str : String) :
    (storeDateMatches stores target_str = [] →
        fetch_store_items_for_date stores fetchById target_str = ([], none))
    ∧ (∀ c, chooseLatestStore (storeDateMatches stores target_str) = some c →
        c ∈ storeDateMatches stores target_str
          ∧ ∀ m ∈ storeDateMatches stores target_str,
              pyStrLe (startKey m) (startKey c) = true)
    ∧ (∀ g : String → List StoreItem,
        fetch_store_items_for_date
          [[("start", JVal.str "2025-11-06T10:00:00Z"), ("id", JVal.str "A")],
           [("start", JVal.str "2025-11-06T18:00:00Z"), ("id", JVal.str "B")]]
          g "2025-11-06"
        = (g "B", some "B")) := by
  refine ⟨?_, ?_, ?_⟩
  · intro h
    unfold fetch_store_items_for_date
    by_cases hs : stores.isEmpty
    · simp [hs]
    · simp [hs, h]
  · intro c hc
    have hperm := List.perm_insertionSort storeLe (storeDateMatches stores target_str)
    have hsorted := List.sorted_insertionSort storeLe (storeDateMatches stores target_str)
    refine ⟨hperm.mem_iff.mp (List.mem_of_getLast?_eq_some hc), ?_⟩
    intro m hm
    exact sorted_getLast_ub _ hsorted c hc m (hperm.mem_iff.mpr hm)
  · intro g
    rfl

/-- Witness instantiating C5 with an empty store list and with the spec's
two-store example. -/
theorem C5_store_date_selection_witness :
    fetch_store_items_for_date ([] : List JObj) (fun _ => []) "2025-11-06" = ([], none)
    ∧ fetch_store_items_for_date
        [[("start", JVal.str "2025-11-06T10:00:00Z"), ("id", JVal.str "A")],
         [("start", JVal.str "2025-11-06T18:00:00Z"), ("id", JVal.str "B")]]
        (fun _ => []) "2025-11-06" = ((fun _ => ([] : List StoreItem)) "B", some "B") :=
  ⟨(C5_store_date_selection [] (fun _ => []) "2025-11-06").1 rfl,
   (C5_store_date_selection [] (fun _ => []) "2025-11-06").2.2 (fun _ => [])⟩

/-- C6: `fetch_item_details_by_name` fails with the "Item name is required"
error for every empty or whitespace-only name, with a result independent of
the network oracle (so before any request); for any other name the request
URL percent-encodes the whitespace-trimmed name, a failure message containing
"HTTP 404" is converted into the distinguishable no-item-found error, any
other failure message surfaces unchanged, and a JSON-object response is
returned as is while a non-object one becomes a generic error. -/
theorem C6_item_lookup_errors (http : String → Except String JVal) (name : String) :
    (pyStrip name = "" → ∀ http2 : String → Except String JVal,
        fetch_item_details_by_name http2 name = .error "Item name is required")
    ∧ (pyStrip name ≠ "" →
        (∀ msg, http (API_BASE ++ "/item/" ++ pyQuote (pyStrip name)) = .error msg →
          fetch_item_details_by_name http name =
            .error (if containsSub msg "HTTP 404"
              then "No item found on SCMM matching \x27" ++ pyStrip name
                ++ "\x27. Check the spelling or try a different name."
              else msg))
        ∧ (∀ d, http (API_BASE ++ "/item/" ++ pyQuote (pyStrip name)) = .ok d →
          fetch_item_details_by_name http name =
            match d with
            | .obj _ => .ok d
            | _ => .error "SCMM item details response was not an object")) := by
  constructor
  · intro h http2
    unfold fetch_item_details_by_name
    simp [h]
  · intro h
    constructor
    · intro msg hmsg
      unfold fetch_item_details_by_name
      rw [if_neg h]
      simp only [hmsg]
      by_cases h404 : containsSub msg "HTTP 404"
      · simp [h404]
      · simp [h404]
    · intro d hd
      unfold fetch_item_details_by_name
      rw [if_neg h]
      simp only [hd]

/-- Witness instantiating C6 at a whitespace-only name, and at the name
" Door " against an oracle answering 404 at the trimmed encoded URL. -/
theorem C6_item_lookup_errors_witness :
    fetch_item_details_by_name
        (fun _ => .error "SCMM responded with HTTP 500") "  \t "
      = .error "Item name is required"
    ∧ fetch_item_details_by_name
        (fun url => if url = API_BASE ++ "/item/" ++ pyQuote "Door"
          then .error "SCMM responded with HTTP 404 for x" else .ok (JVal.obj []))
        " Door "
      = .error ("No item found on SCMM matching \x27" ++ pyStrip " Door "
          ++ "\x27. Check the spelling or try a different name.") := by
  constructor
  · exact (C6_item_lookup_errors (fun _ => .error "SCMM responded with HTTP 500")
      "  \t ").1 (by decide) _
  · have h := (C6_item_lookup_errors
        (fun url => if url = API_BASE ++ "/item/" ++ pyQuote "Door"
          then .error "SCMM responded with HTTP 404 for x" else .ok (JVal.obj []))
        " Door ").2 (by decide)
    have h2 := h.1 "SCMM responded with HTTP 404 for x" (by rfl)
    rw [h2]
    have : containsSub "SCMM responded with HTTP 404 for x" "HTTP 404" = true := by decide
    rw [if_pos this]

/-- C7: rendering the market price lines of a document whose breakdown has
every field absent, with the third-party flag false, produces exactly
`"**Store:** Unknown\n**Steam Market:** No data"` (as does an absent
document); in general the render is the store-price line and the
Steam-vs-store line, with the Skinport and CS.Deals lines appended exactly
when the flag is true, each line falling back to its no-data/no-listings
sentinel when the corresponding price is absent. -/
theorem C7_render_market_lines (d : JObj)
    (hall : get_market_breakdown d = ⟨none, none, none, none, none, none, none⟩) :
    _render_market_lines (some d) false = "**Store:** Unknown\n**Steam Market:** No data"
    ∧ _render_market_lines none false = "**Store:** Unknown\n**Steam Market:** No data"
    ∧ (∀ (d2 : JObj) (flag : Bool), d2.isEmpty = false →
        _render_market_lines (some d2) flag =
          String.intercalate "\n"
            ([_store_line (get_market_breakdown d2), _steam_line (get_market_breakdown d2)]
              ++ (if flag then [_skinport_line (get_market_breakdown d2),
                    _csdeals_line (get_market_breakdown d2)] else [])))
    ∧ (∀ bd : MarketBreakdown, bd.store_price = none →
        _store_line bd = "**Store:** Unknown")
    ∧ (∀ bd : MarketBreakdown, bd.steam_price = none →
        _steam_line bd = "**Steam Market:** No data")
    ∧ (∀ bd : MarketBreakdown, bd.skinport_price = none →
        _skinport_line bd = "**Skinport:** No listings")
    ∧ (∀ bd : MarketBreakdown, bd.csdeals_price = none →
        _csdeals_line bd = "**CS.Deals:** No listings") := by
  refine ⟨?_, rfl, ?_, ?_, ?_, ?_, ?_⟩
  · unfold _render_market_lines
    by_cases hd : d.isEmpty
    · simp [hd]
    · simp only [Bool.not_eq_true] at hd
      simp [hd, hall, _store_line, _steam_line]
      rfl
  · intro d2 flag hne
    unfold _render_market_lines
    simp only [hne, Bool.false_eq_true, if_false]
  · intro bd h
    obtain ⟨sp, st, svs, kp, kvs, cp, cvs⟩ := bd
    simp only at h
    subst h
    rfl
  · intro bd h
    obtain ⟨sp, st, svs, kp, kvs, cp, cvs⟩ := bd
    simp only at h
    subst h
    rfl
  · intro bd h
    obtain ⟨sp, st, svs, kp, kvs, cp, cvs⟩ := bd
    simp only at h
    subst h
    rfl
  · intro bd h
    obtain ⟨sp, st, svs, kp, kvs, cp, cvs⟩ := bd
    simp only at h
    subst h
    rfl

/-- Witness instantiating C7 at a one-field document with no price data. -/
theorem C7_render_market_lines_witness :
    _render_market_lines (some [("x", JVal.int 1)]) false
      = "**Store:** Unknown\n**Steam Market:** No data"
    ∧ _skinport_line ⟨none, none, none, none, none, none, none⟩
      = "**Skinport:** No listings" := by
  have h := C7_render_market_lines [("x", JVal.int 1)] (by decide)
  exact ⟨h.1, h.2.2.2.2.2.1 ⟨none, none, none, none, none, none, none⟩ rfl⟩

theorem pyIsInt_false_asInt (v : JVal) (h : pyIsInt v = false) : asInt v = none := by
  cases v <;> simp [pyIsInt, asInt] at h ⊢

/-- C8: when none of the seven recognized fact fields of a detail document is
present with the expected shape — no nonempty-string release date and no
numeric store price, no numeric supply, no numeric subscriber count, vote
counts that are not both Python ints, no numeric favourite count, no numeric
view count, and no component mapping with a numeric value — the stats-block
builder returns the explicit absent value (and it is a total function, so a
malformed document can only be skipped, never fail the render). -/
theorem C8_stats_block_absent (d : JObj)
    (h1 : ∀ t, pyGet d "timeAccepted" = JVal.str t → t = "")
    (h2 : asNumber (pyGet d "storePrice") = none)
    (h3 : asNumber (pyOr (pyGet d "supplyTotalEstimated")
        (pyGet d "supplyTotalOwnersEstimated")) = none)
    (h4 : asNumber (pyOr (pyGet d "subscriptionsCurrent")
        (pyGet d "subscriptionsLifetime")) = none)
    (h5 : pyIsInt (pyGet d "votesUp") = false ∨ pyIsInt (pyGet d "votesDown") = false)
    (h6 : asNumber (pyOr (pyGet d "favouritedCurrent")
        (pyGet d "favouritedLifetime")) = none)
    (h7 : asNumber (pyGet d "views") = none)
    (h8 : ∀ fs, pyGet d "breaksIntoComponents" = JVal.obj fs →
        ∀ kv ∈ fs, asNumber kv.2 = none) :
    _build_stats_block (some d) = none ∧ _build_stats_block none = none := by
  refine ⟨?_, rfl⟩
  have hR : statsReleasedLines d = [] := by
    unfold statsReleasedLines
    simp only [h2]
    cases hT : pyGet d "timeAccepted" with
    | str t =>
      have ht := h1 t hT
      subst ht
      simp
    | null => simp
    | bool b => simp
    | int n => simp
    | float q => simp
    | arr xs => simp
    | obj fs => simp
  have hS : statsSupplyLines d = [] := by
    unfold statsSupplyLines
    simp only [h3]
  have hSub : statsSubsLines d = [] := by
    unfold statsSubsLines
    simp only [h4]
  have hV : statsVotesLines d = [] := by
    unfold statsVotesLines
    rcases h5 with h | h
    · simp [pyIsInt_false_asInt _ h]
    · cases hUp : asInt (pyGet d "votesUp") with
      | none => simp [hUp]
      | some up => simp [hUp, pyIsInt_false_asInt _ h]
  have hF : statsFavsLines d = [] := by
    unfold statsFavsLines
    simp only [h6]
  have hW : statsViewsLines d = [] := by
    unfold statsViewsLines
    simp only [h7]
  have hC : statsComponentsLines d = [] := by
    unfold statsComponentsLines
    cases hB : pyGet d "breaksIntoComponents" with
    | obj fs =>
      by_cases hfs : fs.isEmpty
      · simp [hfs]
      · have hparts : fs.filterMap (fun kv =>
            match asNumber kv.2 with
            | some v => some (toString (pyTrunc v) ++ "x " ++ kv.1)
            | none => none) = [] := by
          refine List.filterMap_eq_nil_iff.mpr ?_
          intro kv hkv
          simp [h8 fs hB kv hkv]
        simp [hfs, hparts]
    | null => rfl
    | bool b => rfl
    | int n => rfl
    | float q => rfl
    | str t => rfl
    | arr xs => rfl
  unfold _build_stats_block
  by_cases hd : d.isEmpty
  · simp [hd]
  · simp [hd, hR, hS, hSub, hV, hF, hW, hC]

/-- Witness instantiating C8 at a document with one unrecognized field and a
malformed (string-valued) view count. -/
theorem C8_stats_block_absent_witness :
    _build_stats_block (some [("y", JVal.int 3), ("views", JVal.str "many")]) = none :=
  (C8_stats_block_absent [("y", JVal.int 3), ("views", JVal.str "many")]
    (by intro t ht; cases ht) (by decide) (by decide) (by decide)
    (Or.inl (by decide)) (by decide) (by decide)
    (by intro fs hfs; cases hfs)).1

/-- C9: in the best-price scan an entry is excluded for unavailability only
when its availability field is literally the boolean false: the exclusion
test rejects exactly that value, an entry whose `isAvailable` holds any other
value (or is missing — `dict.get` then yields `None`, i.e. `JVal.null`)
participates in minimum-price selection, and an entry marked with the literal
false contributes nothing. -/
theorem C9_availability_literal_false (v : JVal) (hv : v ≠ JVal.bool false) (p q : Rat) :
    isLiteralFalse v = false
    ∧ (get_market_breakdown
        [("sellPrices", JVal.arr [JVal.obj
          [("marketType", JVal.str "Skinport"), ("price", JVal.float p),
           ("isAvailable", v)]])]).skinport_price
        = some (if p > 50 then p / 100 else p)
    ∧ (get_market_breakdown
        [("sellPrices", JVal.arr [JVal.obj
          [("marketType", JVal.str "Skinport"), ("price", JVal.float p)]])]).skinport_price
        = some (if p > 50 then p / 100 else p)
    ∧ (get_market_breakdown
        [("sellPrices", JVal.arr [JVal.obj
          [("marketType", JVal.str "Skinport"), ("price", JVal.float p),
           ("isAvailable", JVal.bool false)]])]).skinport_price = none
    ∧ (get_market_breakdown
        [("sellPrices", JVal.arr
          [JVal.obj [("marketType", JVal.str "Skinport"), ("price", JVal.float p),
            ("isAvailable", v)],
           JVal.obj [("marketType", JVal.str "Skinport"),
            ("price", JVal.float q)]])]).skinport_price
        = some (min (if p > 50 then p / 100 else p) (if q > 50 then q / 100 else q)) := by
  have hfalse : isLiteralFalse v = false := by
    cases v with
    | bool b =>
      cases b with
      | false => exact absurd rfl hv
      | true => rfl
    | null => rfl
    | int n => rfl
    | float r => rfl
    | str t => rfl
    | arr xs => rfl
    | obj fs => rfl
  refine ⟨hfalse, ?_, ?_, ?_, ?_⟩
  · simp [get_market_breakdown, scan, scanEntry, pyGet, List.lookup, hfalse,
      hasTag, _norm_price, asNumber, updateMin, extract_store_price_from_details]
  · simp [get_market_breakdown, scan, scanEntry, pyGet, List.lookup,
      hasTag, _norm_price, asNumber, updateMin, extract_store_price_from_details,
      isLiteralFalse]
  · simp [get_market_breakdown, scan, scanEntry, pyGet, List.lookup,
      hasTag, _norm_price, asNumber, updateMin, extract_store_price_from_details,
      isLiteralFalse]
  · simp [get_market_breakdown, scan, scanEntry, pyGet, List.lookup, hfalse,
      hasTag, _norm_price, asNumber, updateMin_eq_optMin, updateMin, optMin,
      extract_store_price_from_details, isLiteralFalse]
    generalize (if 50 < p then p / 100 else p) = a
    generalize (if 50 < q then q / 100 else q) = b
    rcases lt_or_le b a with h | h
    · rw [if_pos h, min_eq_right h.le]
    · rw [if_neg (not_lt.mpr h), min_eq_left h]

/-- Witness instantiating C9 with a null availability value and prices 10
and 20. -/
theorem C9_availability_literal_false_witness :
    (get_market_breakdown
        [("sellPrices", JVal.arr [JVal.obj
          [("marketType", JVal.str "Skinport"), ("price", JVal.float 10),
           ("isAvailable", JVal.null)]])]).skinport_price
      = some (if (10 : Rat) > 50 then 10 / 100 else 10) :=
  (C9_availability_literal_false JVal.null (by intro h; cases h) 10 20).2.1

/-- C10 counterexample: on the raw record whose `name` field is the integer
5, `_normalize_store_item` yields a StoreItem whose name is that integer —
not a non-empty string, refuting the claim that the name is always a
non-empty string. -/
theorem C10_normalize_name_counterexample :
    ¬ ∃ s : String, s ≠ ""
      ∧ (_normalize_store_item [("name", JVal.int 5)]).name = JVal.str s := by
  rintro ⟨s, -, h⟩
  have hval : (_normalize_store_item [("name", JVal.int 5)]).name = JVal.int 5 := rfl
  rw [hval] at h
  cases h

/-- C10 amended: `_normalize_store_item` is total (a Lean function), and its
name is the raw `name` value when that value is truthy and the string
`"Unknown"` otherwise; in particular the name is `"Unknown"` whenever the raw
name field is missing, empty or falsy, and it is a non-empty string whenever
the raw name field holds a string.  (A truthy non-string raw name is passed
through unchanged — the dataclass annotation is not enforced.) -/
theorem C10_normalize_name_amended (raw : JObj) :
    ((_normalize_store_item raw).name
        = if truthy (pyGet raw "name") then pyGet raw "name" else JVal.str "Unknown")
    ∧ (truthy (pyGet raw "name") = false →
        (_normalize_store_item raw).name = JVal.str "Unknown")
    ∧ (∀ s : String, pyGet raw "name" = JVal.str s →
        ∃ t : String, t ≠ "" ∧ (_normalize_store_item raw).name = JVal.str t) := by
  have hbase : (_normalize_store_item raw).name
      = pyOr (pyGet raw "name") (JVal.str "Unknown") := rfl
  refine ⟨hbase, ?_, ?_⟩
  · intro h
    rw [hbase]
    simp [pyOr, h]
  · intro s hs
    rw [hbase, hs]
    by_cases he : s = ""
    · subst he
      refine ⟨"Unknown", by decide, ?_⟩
      simp [pyOr, truthy]
    · refine ⟨s, he, ?_⟩
      simp [pyOr, truthy, he]

/-- Witness instantiating the amended C10 at a record with an empty-string
name. -/
theorem C10_normalize_name_amended_witness :
    (_normalize_store_item [("name", JVal.str "")]).name = JVal.str "Unknown" :=
  (C10_normalize_name_amended [("name", JVal.str "")]).2.1 (by decide)

end SteamMarketBot

